import Mathlib

set_option maxRecDepth 4000

/- Shallow embedding of the tornado-solana privacy pool
   (programs/tornado_solana/src/lib.rs and merkle_tree.rs).

   Byte arrays are lists of Nat (each entry a byte value).  External
   libraries (light-poseidon, ark-bn254, groth16-solana, the Solana
   runtime) are modelled as explicit function parameters or, where a
   claim needs their concrete behaviour, as functions modelled from the
   spec.  Fallible Rust code returns Except. -/

/-- 32-byte values (commitments, roots, hashes, pubkeys) as byte lists. -/
abbrev B32 := List Nat

/-- The all-zero 32-byte value, the sentinel used by is_known_root. -/
def zero32 : B32 := List.replicate 32 0

/-- Model of the external light-poseidon library used by merkle_tree.rs:
new_circom may fail at initialization, hash_bytes_be may fail on
non-canonical input.  The library is an external collaborator, so it is a
parameter of the embedding. -/
structure PoseidonLib where
  new_circom : Nat → Except Unit Unit
  hash_bytes_be2 : B32 → B32 → Except Unit B32
  hash_bytes_be1 : B32 → Except Unit B32

/-- The error enum of lib.rs (error_code TornadoError). -/
inductive TornadoError where
  | FeeExceedsDenomination
  | NoteAlreadySpent
  | UnknownRoot
  | InvalidProof
  | InvalidProofLength
  | InvalidProofFormat
  | ProofNegationFailed
  | VerifierCreationFailed
  | MerkleTreeFull
  | RelayerMismatch
  | RecipientCannotBeRelayer
  | InvalidVerifyingKey
  | VaultMismatch
  | VaultNotSystemOwned
  | VaultBelowRent
  | RelayerAccountMissing
  | BadRecipient
  deriving DecidableEq, Repr

/-- merkle_tree.rs MerkleTree::hash_left_right: Poseidon on two inputs,
falling back to the all-zero array on any initialization or hashing
error. -/
def hash_left_right (lib : PoseidonLib) (left right : B32) : B32 :=
  match lib.new_circom 2 with
  | .error _ => zero32
  | .ok _ =>
    match lib.hash_bytes_be2 left right with
    | .ok hash => hash
    | .error _ => zero32

/-- merkle_tree.rs MerkleTree::hash_leaf: Poseidon on one input, with the
same zero fallback. -/
def hash_leaf (lib : PoseidonLib) (data : B32) : B32 :=
  match lib.new_circom 1 with
  | .error _ => zero32
  | .ok _ =>
    match lib.hash_bytes_be1 data with
    | .ok hash => hash
    | .error _ => zero32

/-- merkle_tree.rs MerkleTree struct. -/
structure MerkleTree where
  levels : Nat
  filled_subtrees : List B32
  zeros : List B32
  current_root : B32
  next_index : Nat
  deriving DecidableEq, Repr

/-- The zero chain of MerkleTree::generate_zeros, accumulated in reverse:
the head of zerosAcc lib i is zeros[i], built from zeros[0] = hash_leaf(0)
by zeros[i] = hash_left_right(zeros[i-1], zeros[i-1]). -/
def zerosAcc (lib : PoseidonLib) : Nat → List B32
  | 0 => [hash_leaf lib zero32]
  | i + 1 =>
    match zerosAcc lib i with
    | [] => []
    | z :: zs => hash_left_right lib z z :: z :: zs

/-- merkle_tree.rs MerkleTree::generate_zeros: the 20-entry zero chain. -/
def generate_zeros (lib : PoseidonLib) : List B32 :=
  (zerosAcc lib 19).reverse

/-- merkle_tree.rs MerkleTree::new: filled_subtrees = zeros,
current_root = zeros[19], next_index = 0, levels = 20. -/
def MerkleTree.new (lib : PoseidonLib) : MerkleTree :=
  let zeros := generate_zeros lib
  { levels := 20
    filled_subtrees := zeros
    zeros := zeros
    current_root := zeros.getD 19 zero32
    next_index := 0 }

/-- One iteration of the for-loop in MerkleTree::insert, at level i.  The
accumulator carries (current_index, current_level_hash, filled_subtrees);
an even index is a left child (store the hash, pair with zeros[i]), an
odd one a right child (pair with filled_subtrees[i]). -/
def insertStep (lib : PoseidonLib) (zeros : List B32) :
    Nat × B32 × List B32 → Nat → Nat × B32 × List B32
  | (idx, h, st), i =>
    if idx % 2 = 0 then
      (idx / 2, hash_left_right lib h (zeros.getD i zero32), st.set i h)
    else
      (idx / 2, hash_left_right lib (st.getD i zero32) h, st)

/-- merkle_tree.rs MerkleTree::insert: require next_index < 2^levels,
then walk levels 0..levels-1, set current_root, bump next_index, and
return the pre-increment index. -/
def MerkleTree.insert (lib : PoseidonLib) (t : MerkleTree) (leaf : B32) :
    Except TornadoError (MerkleTree × Nat) :=
  if t.next_index < 2 ^ t.levels then
    .ok ({ t with
            filled_subtrees := ((List.range t.levels).foldl
              (insertStep lib t.zeros)
              (t.next_index, leaf, t.filled_subtrees)).2.2
            current_root := ((List.range t.levels).foldl
              (insertStep lib t.zeros)
              (t.next_index, leaf, t.filled_subtrees)).2.1
            next_index := t.next_index + 1 },
         t.next_index)
  else
    .error .MerkleTreeFull

/-- merkle_tree.rs MerkleTree::get_root. -/
def MerkleTree.get_root (t : MerkleTree) : B32 :=
  t.current_root

/-- lib.rs ROOT_HISTORY_SIZE. -/
def ROOT_HISTORY_SIZE : Nat := 30

/-- The loop body of lib.rs is_known_root, with explicit fuel (the Rust
loop visits at most ROOT_HISTORY_SIZE slots).  An out-of-bounds array
access roots[i] is a Rust panic, modelled as none. -/
def scanLoop (roots : List B32) (current_index : Nat) (root : B32) :
    Nat → Nat → Option Bool
  | _, 0 => none
  | i, fuel + 1 =>
    match roots[i]? with
    | none => none
    | some v =>
      if v = root then some true
      else
        let i2 := if i = 0 then ROOT_HISTORY_SIZE - 1 else i - 1
        if i2 = current_index then some false
        else scanLoop roots current_index root i2 fuel

/-- lib.rs is_known_root: false for the zero sentinel, otherwise scan the
ring backward from the cursor; some b is a normal return, none is an
out-of-bounds panic. -/
def is_known_root (roots : List B32) (current_index : Nat) (root : B32) :
    Option Bool :=
  if root = zero32 then some false
  else scanLoop roots current_index root current_index ROOT_HISTORY_SIZE

/-- lib.rs split_address_to_high_low: high carries bytes [0..16) of the
address in its low 16 bytes, low carries bytes [16..32); the first 16
bytes of each half are zero. -/
def split_address_to_high_low (address : B32) : B32 × B32 :=
  (List.replicate 16 0 ++ address.take 16,
   List.replicate 16 0 ++ (address.drop 16).take 16)

/-- lib.rs reconstruct_address_from_high_low. -/
def reconstruct_address_from_high_low (high low : B32) : B32 :=
  (high.drop 16).take 16 ++ (low.drop 16).take 16

/-- Little-endian byte decoding (u32::from_le_bytes and the ark field
element readers). -/
def leToNat : List Nat → Nat
  | [] => 0
  | b :: bs => b + 256 * leToNat bs

/-- Little-endian byte encoding of a value into a fixed width. -/
def natToLE : Nat → Nat → List Nat
  | 0, _ => []
  | w + 1, v => v % 256 :: natToLE w (v / 256)

/-- lib.rs encode_u64_as_32_bytes: big-endian u64 into bytes 24..32. -/
def encode_u64_as_32_bytes (value : Nat) : B32 :=
  List.replicate 24 0 ++ (natToLE 8 value).reverse

/-- Reverse the leading 32-byte chunk and recurse on the rest; the fuel
bounds the number of chunks and is chosen large enough in the wrapper. -/
def chunkRevAux : Nat → List Nat → List Nat
  | 0, _ => []
  | fuel + 1, bytes =>
    match bytes with
    | [] => []
    | _ :: _ => (bytes.take 32).reverse ++ chunkRevAux fuel (bytes.drop 32)

/-- lib.rs change_endianness: reverse every 32-byte chunk. -/
def change_endianness (bytes : List Nat) : List Nat :=
  chunkRevAux bytes.length bytes

/-- lib.rs Groth16Verifyingkey (the groth16-solana struct populated by
deserialize_verifying_key; field names as in the source, including the
gamme typo). -/
structure Groth16Verifyingkey where
  nr_pubinputs : Nat
  vk_alpha_g1 : List Nat
  vk_beta_g2 : List Nat
  vk_gamme_g2 : List Nat
  vk_delta_g2 : List Nat
  vk_ic : List (List Nat)
  deriving DecidableEq, Repr

/-- Bounds-checked slice, modelling vk_bytes.get(off..off+len) in Rust. -/
def listSlice (l : List Nat) (off len : Nat) : Option (List Nat) :=
  if off + len ≤ l.length then some ((l.drop off).take len) else none

/-- lib.rs MIN_VK_SIZE: 4 + 64 + 128 + 128 + 128 + 64. -/
def MIN_VK_SIZE : Nat := 4 + 64 + 128 + 128 + 128 + 64

/-- lib.rs deserialize_verifying_key: min-size check, nr_pubinputs bounds,
fixed-layout parses, IC-array size check, zero-element corruption check. -/
def deserialize_verifying_key (vk_bytes : List Nat) :
    Except TornadoError Groth16Verifyingkey :=
  if vk_bytes.length < MIN_VK_SIZE then .error .InvalidVerifyingKey
  else
    match listSlice vk_bytes 0 4 with
    | none => .error .InvalidVerifyingKey
    | some nrBytes =>
      let nr_pubinputs := leToNat nrBytes
      if nr_pubinputs = 0 ∨ nr_pubinputs > 100 then .error .InvalidVerifyingKey
      else
        match listSlice vk_bytes 4 64 with
        | none => .error .InvalidVerifyingKey
        | some vk_alpha_g1 =>
          match listSlice vk_bytes 68 128 with
          | none => .error .InvalidVerifyingKey
          | some vk_beta_g2 =>
            match listSlice vk_bytes 196 128 with
            | none => .error .InvalidVerifyingKey
            | some vk_gamme_g2 =>
              match listSlice vk_bytes 324 128 with
              | none => .error .InvalidVerifyingKey
              | some vk_delta_g2 =>
                let ic_count := nr_pubinputs + 1
                if vk_bytes.length < 452 + ic_count * 64 then
                  .error .InvalidVerifyingKey
                else
                  let vk_ic := (List.range ic_count).map
                    (fun i => (vk_bytes.drop (452 + i * 64)).take 64)
                  if vk_alpha_g1.all (· = 0) ∨ vk_beta_g2.all (· = 0) ∨
                     vk_gamme_g2.all (· = 0) ∨ vk_delta_g2.all (· = 0) then
                    .error .InvalidVerifyingKey
                  else
                    .ok { nr_pubinputs, vk_alpha_g1, vk_beta_g2,
                          vk_gamme_g2, vk_delta_g2, vk_ic }

/-- Modelled from the spec: the BN254 base field modulus used by the
external ark-bn254 library (the curve is y^2 = x^3 + 3 over this field). -/
def bn254FieldModulus : Nat :=
  21888242871839275222246405745257275088696311157297823662689037894645226208583

/-- Modelled from the spec: a BN254 G1 affine point of the external
ark-bn254 library, either the point at infinity or finite coordinates. -/
inductive G1Point where
  | infinity
  | pt (x y : Nat)
  deriving DecidableEq, Repr

/-- Modelled from the spec: the BN254 G1 curve equation check. -/
def onCurveG1 (x y : Nat) : Bool :=
  (y * y) % bn254FieldModulus = (x * x * x + 3) % bn254FieldModulus

/-- Modelled from the spec: ark-bn254 G1Affine::deserialize_uncompressed
on the 65-byte little-endian buffer built by negate_proof_a (x in bytes
0..32, y in bytes 32..64 with the flag bits in the top bits of byte 63;
bit 6 is the infinity flag).  Field elements must be canonical and finite
points must satisfy the curve equation; none models a deserialization
error. -/
def deserializeG1 (bs : List Nat) : Option G1Point :=
  if bs.length ≠ 65 then none
  else
    let x := leToNat (bs.take 32)
    let lastYByte := bs.getD 63 0
    let isInf := lastYByte.testBit 6
    let y := leToNat (((bs.drop 32).take 32).set 31 (lastYByte % 64))
    if isInf then some .infinity
    else if x < bn254FieldModulus ∧ y < bn254FieldModulus ∧ onCurveG1 x y then
      some (.pt x y)
    else none

/-- Modelled from the spec: ark-bn254 G1 affine negation. -/
def negG1 : G1Point → G1Point
  | .infinity => .infinity
  | .pt x y => .pt x ((bn254FieldModulus - y) % bn254FieldModulus)

/-- Modelled from the spec: ark-bn254 serialize_uncompressed into the
65-byte buffer of negate_proof_a (the trailing byte stays zero). -/
def serializeG1 : G1Point → List Nat
  | .infinity => natToLE 32 0 ++ natToLE 31 0 ++ [64] ++ [0]
  | .pt x y => natToLE 32 x ++ natToLE 32 y ++ [0]

/-- lib.rs negate_proof_a: endianness swap, append the zero infinity
byte, deserialize as G1 (failure is InvalidProofFormat), negate,
serialize, truncate the flag byte, swap endianness back. -/
def negate_proof_a (proof_a_bytes : List Nat) :
    Except TornadoError (List Nat) :=
  let le_bytes_with_zero := change_endianness proof_a_bytes ++ [0]
  match deserializeG1 le_bytes_with_zero with
  | none => .error .InvalidProofFormat
  | some point =>
    let negated := negG1 point
    let proof_a_neg := serializeG1 negated
    .ok (change_endianness (proof_a_neg.take 64))

/-- lib.rs prepare_public_inputs: the 8 public inputs in circuit order. -/
def prepare_public_inputs (root nullifier_hash recipient relayer : B32)
    (fee refund : Nat) : List B32 :=
  let rsplit := split_address_to_high_low recipient
  let lsplit := split_address_to_high_low relayer
  [root, nullifier_hash, rsplit.1, rsplit.2, lsplit.1, lsplit.2,
   encode_u64_as_32_bytes fee, encode_u64_as_32_bytes refund]

/-- Model of the external groth16-solana library: Groth16Verifier::new
and Groth16Verifier::verify, keyed on the arguments the source passes. -/
structure Groth16Lib where
  new : List Nat → List Nat → List Nat → List B32 → Groth16Verifyingkey →
    Except Unit Unit
  verify : List Nat → List Nat → List Nat → List B32 → Groth16Verifyingkey →
    Except Unit Unit

/-- lib.rs verify_proof: 256-byte length check, split into A|B|C, negate
A (any negate_proof_a error is remapped to ProofNegationFailed), build the
public inputs, create the verifier, run the pairing check. -/
def verify_proof (glib : Groth16Lib) (proof : List Nat)
    (root nullifier_hash recipient relayer : B32) (fee refund : Nat)
    (verifying_key : Groth16Verifyingkey) : Except TornadoError Unit :=
  if proof.length ≠ 256 then .error .InvalidProofLength
  else
    let proof_a_bytes := proof.take 64
    let proof_b_bytes := (proof.drop 64).take 128
    let proof_c_bytes := (proof.drop 192).take 64
    match negate_proof_a proof_a_bytes with
    | .error _ => .error .ProofNegationFailed
    | .ok proof_a_negated =>
      let public_inputs := prepare_public_inputs root nullifier_hash
        recipient relayer fee refund
      match glib.new proof_a_negated proof_b_bytes proof_c_bytes
          public_inputs verifying_key with
      | .error _ => .error .VerifierCreationFailed
      | .ok _ =>
        match glib.verify proof_a_negated proof_b_bytes proof_c_bytes
            public_inputs verifying_key with
        | .error _ => .error .InvalidProof
        | .ok _ => .ok ()

/-- lib.rs TornadoState (the pool state account). -/
structure TornadoState where
  authority : B32
  denomination : Nat
  merkle_tree : MerkleTree
  roots : List B32
  current_root_index : Nat
  next_index : Nat
  verifying_key : List Nat
  deriving DecidableEq, Repr

/-- lib.rs initialize handler: writes authority, denomination, a fresh
Merkle tree, cursor 0, next_index 0 and the VK blob into the
zero-initialized account (the roots array stays all-zero). -/
def initialize_pool (lib : PoseidonLib) (authority : B32)
    (denomination : Nat) (verifying_key : List Nat) : TornadoState :=
  { authority := authority
    denomination := denomination
    merkle_tree := MerkleTree.new lib
    roots := List.replicate 30 zero32
    current_root_index := 0
    next_index := 0
    verifying_key := verifying_key }

/-- lib.rs deposit handler, state part: insert the commitment into the
Merkle tree (TreeFull aborts), then advance the root-history cursor
modulo ROOT_HISTORY_SIZE and store the new root there.  The lamport
transfer to the vault is a host-runtime CPI with no effect on
TornadoState and is not part of the state transition. -/
def deposit (lib : PoseidonLib) (s : TornadoState) (commitment : B32) :
    Except TornadoError (TornadoState × Nat) :=
  match MerkleTree.insert lib s.merkle_tree commitment with
  | .error e => .error e
  | .ok (mt, leaf_index) =>
    let new_root := mt.get_root
    let new_index := (s.current_root_index + 1) % ROOT_HISTORY_SIZE
    .ok ({ s with
            merkle_tree := mt
            current_root_index := new_index
            roots := s.roots.set new_index new_root },
         leaf_index)

/-- Host-runtime facts the withdraw handler consults: whether the
nullifier PDA init succeeded (freshness), vault lamports, the rent
minimum, the PDA-derivation checks of validate_vault_pda, the
recipient's executable flag, and the key of the provided relayer
account. -/
structure WithdrawAccounts where
  nullifier_fresh : Bool
  vault_lamports : Nat
  rent_minimum : Nat
  vault_key_ok : Bool
  bump_ok : Bool
  vault_system_owned : Bool
  recipient_executable : Bool
  relayer_account : Option B32
  deriving Repr

/-- A withdraw failure: either a TornadoError or a Rust panic from an
out-of-bounds roots access inside is_known_root. -/
inductive WithdrawFailure where
  | err (e : TornadoError)
  | outOfBounds
  deriving DecidableEq, Repr

/-- The lamport movements of a successful withdraw. -/
structure WithdrawPayout where
  recipient_amount : Nat
  relayer_amount : Nat
  deriving DecidableEq, Repr

/-- lib.rs validate_vault_pda, over the host-derivation facts. -/
def validate_vault_pda (acc : WithdrawAccounts) :
    Except TornadoError Unit :=
  if acc.vault_key_ok = false then .error .VaultMismatch
  else if acc.bump_ok = false then .error .VaultMismatch
  else if acc.vault_system_owned = false then .error .VaultNotSystemOwned
  else .ok ()

/-- lib.rs withdraw handler.  The nullifier PDA init performed by the
account constraints precedes the body (collision aborts the
transaction); the body then checks fee, root recency, decodes the stored
VK, verifies the proof, validates the vault PDA, rejects executable
recipients, enforces the rent floor, and pays recipient and optional
relayer.  The handler never writes any TornadoState field, so the state
it returns is the one it received. -/
def withdraw (glib : Groth16Lib) (s : TornadoState)
    (acc : WithdrawAccounts) (proof : List Nat)
    (root nullifier_hash recipient : B32) (relayer : Option B32)
    (fee refund : Nat) :
    Except WithdrawFailure (TornadoState × WithdrawPayout) :=
  if acc.nullifier_fresh = false then .error (.err .NoteAlreadySpent)
  else if ¬ fee ≤ s.denomination then
    .error (.err .FeeExceedsDenomination)
  else
    match is_known_root s.roots s.current_root_index root with
    | none => .error .outOfBounds
    | some false => .error (.err .UnknownRoot)
    | some true =>
      match deserialize_verifying_key s.verifying_key with
      | .error e => .error (.err e)
      | .ok stored_vk =>
        match verify_proof glib proof root nullifier_hash recipient
            (relayer.getD zero32) fee refund stored_vk with
        | .error e => .error (.err e)
        | .ok _ =>
          match validate_vault_pda acc with
          | .error e => .error (.err e)
          | .ok _ =>
            if acc.recipient_executable then .error (.err .BadRecipient)
            else
              let amount := s.denomination - fee
              let total_payout := amount + fee
              if ¬ acc.rent_minimum ≤ acc.vault_lamports - total_payout then
                .error (.err .VaultBelowRent)
              else
                let recipient_amount := if amount > 0 then amount else 0
                match relayer with
                | some relayer_pubkey =>
                  if fee > 0 then
                    if recipient = relayer_pubkey then
                      .error (.err .RecipientCannotBeRelayer)
                    else
                      match acc.relayer_account with
                      | none => .error (.err .RelayerAccountMissing)
                      | some ra =>
                        if ra ≠ relayer_pubkey then
                          .error (.err .RelayerMismatch)
                        else
                          .ok (s, { recipient_amount, relayer_amount := fee })
                  else .ok (s, { recipient_amount, relayer_amount := 0 })
                | none => .ok (s, { recipient_amount, relayer_amount := 0 })

/-- lib.rs migrate_to_vault handler: moves surplus lamports from the
state account to the vault; it never writes any TornadoState field. -/
def migrate_to_vault (s : TornadoState) : TornadoState :=
  s

/-- Claim-side description of the running hash of MerkleTree::insert
(claim C2's words): h after levels 0..n-1, branching on bit i of the
insertion index. -/
def claimRunningHash (lib : PoseidonLib) (fs zs : List B32) (idx : Nat)
    (leaf : B32) : Nat → B32
  | 0 => leaf
  | i + 1 =>
    let h := claimRunningHash lib fs zs idx leaf i
    if idx.testBit i then hash_left_right lib (fs.getD i zero32) h
    else hash_left_right lib h (zs.getD i zero32)

/-- Claim-side description of the filled_subtrees update of
MerkleTree::insert: at each level i with bit i of the index 0, slot i
receives the running hash of that level. -/
def claimSubtrees (lib : PoseidonLib) (fs zs : List B32) (idx : Nat)
    (leaf : B32) (n : Nat) : List B32 :=
  (List.range n).foldl
    (fun st i =>
      if idx.testBit i then st
      else st.set i (claimRunningHash lib fs zs idx leaf i)) fs

/-- The state after initialize followed by a sequence of deposits; a
deposit that fails leaves the state unchanged (the host aborts the
transaction). -/
def depositStep (lib : PoseidonLib) (s : TornadoState) (c : B32) :
    TornadoState :=
  match deposit lib s c with
  | .ok (s', _) => s'
  | .error _ => s

/-- A pool operation, for the reachability relation of claim C9. -/
inductive PoolOp where
  | dep (commitment : B32)
  | wd (glib : Groth16Lib) (acc : WithdrawAccounts) (proof : List Nat)
      (root nullifier_hash recipient : B32) (relayer : Option B32)
      (fee refund : Nat)
  | migrate

/-- Apply one pool operation to the state; failed operations leave the
state unchanged (atomic transaction rollback). -/
def applyOp (lib : PoseidonLib) (s : TornadoState) : PoolOp → TornadoState
  | .dep c => depositStep lib s c
  | .wd glib acc proof root nh recipient relayer fee refund =>
    match withdraw glib s acc proof root nh recipient relayer fee refund with
    | .ok (s', _) => s'
    | .error _ => s
  | .migrate => migrate_to_vault s

/-- A concrete Poseidon instance whose calls all succeed, used to
evaluate theorems on concrete inputs.  The returned digests are
stand-ins: no claim depends on concrete digest values. -/
def okPoseidon : PoseidonLib :=
  { new_circom := fun _ => .ok ()
    hash_bytes_be2 := fun l _ => .ok (1 :: l.take 31)
    hash_bytes_be1 := fun d => .ok (1 :: d.take 31) }

/-- A concrete Poseidon instance whose initialization always fails,
exercising the zero fallback of hash_left_right and hash_leaf. -/
def errPoseidon : PoseidonLib :=
  { new_circom := fun _ => .error ()
    hash_bytes_be2 := fun _ _ => .error ()
    hash_bytes_be1 := fun _ => .error () }

/-- A concrete Groth16 instance whose calls all succeed, used to
evaluate theorems on concrete inputs. -/
def okGroth : Groth16Lib :=
  { new := fun _ _ _ _ _ => .ok ()
    verify := fun _ _ _ _ _ => .ok () }

/-- A 256-byte all-zero proof blob (scenario S3 of the spec). -/
def zeroProof : List Nat := List.replicate 256 0

/-- An arbitrary well-formed verifying key value for concrete runs that
fail before the verifier is consulted. -/
def someVK : Groth16Verifyingkey :=
  { nr_pubinputs := 8
    vk_alpha_g1 := List.replicate 64 1
    vk_beta_g2 := List.replicate 128 1
    vk_gamme_g2 := List.replicate 128 1
    vk_delta_g2 := List.replicate 128 1
    vk_ic := List.replicate 9 (List.replicate 64 1) }

/-- Concrete withdraw-accounts record for witnesses. -/
def okAccounts : WithdrawAccounts :=
  { nullifier_fresh := true
    vault_lamports := 10000000000
    rent_minimum := 890880
    vault_key_ok := true
    bump_ok := true
    vault_system_owned := true
    recipient_executable := false
    relayer_account := none }

/-- A concrete nonzero 32-byte root used in concrete runs. -/
def r1 : B32 := List.replicate 32 1

/-- The state after one deposit of the zero commitment on a pool whose
Poseidon initialization fails: every hash falls back to zero, so the
produced root is the all-zero sentinel. -/
def zeroRootState : TornadoState :=
  match deposit errPoseidon (initialize_pool errPoseidon zero32 5 []) zero32 with
  | .ok (s, _) => s
  | .error _ => initialize_pool errPoseidon zero32 5 []

/-- The state after one deposit of the zero commitment on a healthy
pool. -/
def okDepositState : TornadoState :=
  match deposit okPoseidon (initialize_pool okPoseidon zero32 5 []) zero32 with
  | .ok (s, _) => s
  | .error _ => initialize_pool okPoseidon zero32 5 []

/-- The decoded record produced by deserialize_verifying_key on a blob
that passes all checks, per the fixed layout. -/
def vkDecoded (b : List Nat) : Groth16Verifyingkey :=
  { nr_pubinputs := leToNat (b.take 4)
    vk_alpha_g1 := (b.drop 4).take 64
    vk_beta_g2 := (b.drop 68).take 128
    vk_gamme_g2 := (b.drop 196).take 128
    vk_delta_g2 := (b.drop 324).take 128
    vk_ic := (List.range (leToNat (b.take 4) + 1)).map
      (fun i => (b.drop (452 + i * 64)).take 64) }

/-- C7: splitting a 32-byte address into (high, low) and reconstructing
yields the address again, and both halves have their first 16 bytes equal
to zero. -/
theorem split_reconstruct_roundtrip (a : B32) (h : a.length = 32) :
    reconstruct_address_from_high_low (split_address_to_high_low a).1
      (split_address_to_high_low a).2 = a ∧
    (split_address_to_high_low a).1.take 16 = List.replicate 16 0 ∧
    (split_address_to_high_low a).2.take 16 = List.replicate 16 0 := by
  have hdropHigh :
      ((List.replicate 16 (0 : Nat) ++ a.take 16).drop 16) = a.take 16 := by
    have h16 := List.drop_left (List.replicate 16 (0 : Nat)) (a.take 16)
    simp only [List.length_replicate] at h16
    exact h16
  have hdropLow :
      ((List.replicate 16 (0 : Nat) ++ (a.drop 16).take 16).drop 16)
        = (a.drop 16).take 16 := by
    have h16 := List.drop_left (List.replicate 16 (0 : Nat))
      ((a.drop 16).take 16)
    simp only [List.length_replicate] at h16
    exact h16
  refine ⟨?_, ?_, ?_⟩
  · show ((List.replicate 16 0 ++ a.take 16).drop 16).take 16 ++
      ((List.replicate 16 0 ++ (a.drop 16).take 16).drop 16).take 16 = a
    rw [hdropHigh, hdropLow]
    have h1 : (a.take 16).take 16 = a.take 16 := by
      simp [List.take_take]
    have h2 : ((a.drop 16).take 16).take 16 = (a.drop 16).take 16 := by
      simp [List.take_take]
    have h3 : (a.drop 16).take 16 = a.drop 16 := by
      apply List.take_of_length_le
      simp [h]
    rw [h1, h2, h3, List.take_append_drop]
  · show (List.replicate 16 0 ++ a.take 16).take 16 = List.replicate 16 0
    have h16 := List.take_left (List.replicate 16 (0 : Nat)) (a.take 16)
    simp only [List.length_replicate] at h16
    exact h16
  · show (List.replicate 16 0 ++ (a.drop 16).take 16).take 16
      = List.replicate 16 0
    have h16 := List.take_left (List.replicate 16 (0 : Nat))
      ((a.drop 16).take 16)
    simp only [List.length_replicate] at h16
    exact h16

/-- Witness for C7 at the concrete address 0,1,...,31. -/
theorem split_reconstruct_roundtrip_witness :
    reconstruct_address_from_high_low
      (split_address_to_high_low (List.range 32)).1
      (split_address_to_high_low (List.range 32)).2 = List.range 32 ∧
    (split_address_to_high_low (List.range 32)).1.take 16
      = List.replicate 16 0 ∧
    (split_address_to_high_low (List.range 32)).2.take 16
      = List.replicate 16 0 :=
  split_reconstruct_roundtrip (List.range 32) (by decide)

/-- C6: a withdraw call with a fresh nullifier and fee > denomination
fails with FeeExceedsDenomination, and every successful withdraw
satisfies fee ≤ denomination. -/
theorem withdraw_fee_cap (glib : Groth16Lib) (s : TornadoState)
    (acc : WithdrawAccounts) (proof : List Nat)
    (root nh recipient : B32) (relayer : Option B32) (fee refund : Nat) :
    (acc.nullifier_fresh = true → s.denomination < fee →
      withdraw glib s acc proof root nh recipient relayer fee refund
        = .error (.err .FeeExceedsDenomination)) ∧
    (∀ out, withdraw glib s acc proof root nh recipient relayer fee refund
        = .ok out → fee ≤ s.denomination) := by
  constructor
  · intro hfresh hlt
    unfold withdraw
    rw [if_neg (by simp [hfresh]), if_pos (by omega)]
  · intro out hok
    by_cases hle : fee ≤ s.denomination
    · exact hle
    · exfalso
      unfold withdraw at hok
      by_cases hfresh : acc.nullifier_fresh = false
      · rw [if_pos hfresh] at hok
        exact absurd hok (by simp)
      · rw [if_neg hfresh, if_pos (by omega)] at hok
        exact absurd hok (by simp)

/-- Witness for C6: denomination 5, fee 7 fails with
FeeExceedsDenomination. -/
theorem withdraw_fee_cap_witness :
    withdraw okGroth (initialize_pool okPoseidon zero32 5 []) okAccounts
      zeroProof zero32 zero32 zero32 none 7 0
      = .error (.err .FeeExceedsDenomination) :=
  (withdraw_fee_cap okGroth (initialize_pool okPoseidon zero32 5 [])
    okAccounts zeroProof zero32 zero32 zero32 none 7 0).1 (by rfl) (by decide)

/-- C10: hash_left_right and hash_leaf return the all-zero array instead
of propagating Poseidon initialization or hashing failures, and
MerkleTree::insert errors only with MerkleTreeFull, exactly when
next_index has reached capacity. -/
theorem hash_fallback_insert_total (lib : PoseidonLib) :
    (∀ l r e, lib.new_circom 2 = .error e → hash_left_right lib l r = zero32) ∧
    (∀ l r e, lib.hash_bytes_be2 l r = .error e →
      hash_left_right lib l r = zero32) ∧
    (∀ d e, lib.new_circom 1 = .error e → hash_leaf lib d = zero32) ∧
    (∀ d e, lib.hash_bytes_be1 d = .error e → hash_leaf lib d = zero32) ∧
    (∀ t leaf e, MerkleTree.insert lib t leaf = .error e →
      e = .MerkleTreeFull ∧ 2 ^ t.levels ≤ t.next_index) := by
  refine ⟨?_, ?_, ?_, ?_, ?_⟩
  · intro l r e he
    unfold hash_left_right
    rw [he]
  · intro l r e he
    unfold hash_left_right
    cases hnc : lib.new_circom 2 with
    | error _ => rfl
    | ok _ => rw [he]
  · intro d e he
    unfold hash_leaf
    rw [he]
  · intro d e he
    unfold hash_leaf
    cases hnc : lib.new_circom 1 with
    | error _ => rfl
    | ok _ => rw [he]
  · intro t leaf e hins
    unfold MerkleTree.insert at hins
    by_cases hlt : t.next_index < 2 ^ t.levels
    · rw [if_pos hlt] at hins
      exact absurd hins (by simp)
    · rw [if_neg hlt] at hins
      refine ⟨by injection hins with h; exact h.symm, by omega⟩

/-- Normal form of deserialize_verifying_key: the Option plumbing of the
intermediate slices collapses into a chain of the four checks. -/
theorem deserialize_vk_eq (b : List Nat) :
    deserialize_verifying_key b =
      (if b.length < MIN_VK_SIZE then .error .InvalidVerifyingKey
       else if leToNat (b.take 4) = 0 ∨ 100 < leToNat (b.take 4) then
         .error .InvalidVerifyingKey
       else if b.length < 452 + (leToNat (b.take 4) + 1) * 64 then
         .error .InvalidVerifyingKey
       else if ((b.drop 4).take 64).all (· = 0) ∨
               ((b.drop 68).take 128).all (· = 0) ∨
               ((b.drop 196).take 128).all (· = 0) ∨
               ((b.drop 324).take 128).all (· = 0) then
         .error .InvalidVerifyingKey
       else .ok (vkDecoded b)) := by
  by_cases h1 : b.length < MIN_VK_SIZE
  · unfold deserialize_verifying_key
    rw [if_pos h1, if_pos h1]
  · have hlen : 516 ≤ b.length := by
      simp [MIN_VK_SIZE] at h1
      omega
    have hs : ∀ off len, off + len ≤ b.length →
        listSlice b off len = some ((b.drop off).take len) := by
      intro off len h
      unfold listSlice
      rw [if_pos h]
    unfold deserialize_verifying_key
    rw [if_neg h1, if_neg h1,
        hs 0 4 (by omega), hs 4 64 (by omega), hs 68 128 (by omega),
        hs 196 128 (by omega), hs 324 128 (by omega)]
    simp only [List.drop_zero, vkDecoded]

/-- C5: deserialize_verifying_key rejects exactly the blobs with
nr_pubinputs 0 or above 100, or shorter than 452 + 64*(nr_pubinputs+1),
or with an all-zero alpha/beta/gamma/delta; every other blob is accepted
and decoded per the fixed layout (nr at 0, alpha at 4, beta at 68, gamma
at 196, delta at 324, IC at 452). -/
theorem deserialize_vk_validation (b : List Nat) :
    (deserialize_verifying_key b = .error .InvalidVerifyingKey ↔
      (leToNat (b.take 4) = 0 ∨ 100 < leToNat (b.take 4) ∨
       b.length < 452 + 64 * (leToNat (b.take 4) + 1) ∨
       ((b.drop 4).take 64).all (· = 0) = true ∨
       ((b.drop 68).take 128).all (· = 0) = true ∨
       ((b.drop 196).take 128).all (· = 0) = true ∨
       ((b.drop 324).take 128).all (· = 0) = true)) ∧
    (∀ vk, deserialize_verifying_key b = .ok vk → vk = vkDecoded b) := by
  rw [deserialize_vk_eq b]
  constructor
  · constructor
    · intro herr
      by_cases h1 : b.length < MIN_VK_SIZE
      · by_cases hz : leToNat (b.take 4) = 0
        · exact Or.inl hz
        · by_cases hg : 100 < leToNat (b.take 4)
          · exact Or.inr (Or.inl hg)
          · refine Or.inr (Or.inr (Or.inl ?_))
            simp [MIN_VK_SIZE] at h1
            omega
      · rw [if_neg h1] at herr
        by_cases h2 : leToNat (b.take 4) = 0 ∨ 100 < leToNat (b.take 4)
        · rcases h2 with hz | hg
          · exact Or.inl hz
          · exact Or.inr (Or.inl hg)
        · rw [if_neg h2] at herr
          by_cases h3 : b.length < 452 + (leToNat (b.take 4) + 1) * 64
          · refine Or.inr (Or.inr (Or.inl ?_))
            omega
          · rw [if_neg h3] at herr
            by_cases h4 : ((b.drop 4).take 64).all (· = 0) = true ∨
                ((b.drop 68).take 128).all (· = 0) = true ∨
                ((b.drop 196).take 128).all (· = 0) = true ∨
                ((b.drop 324).take 128).all (· = 0) = true
            · rcases h4 with ha | hb | hc | hd
              · exact Or.inr (Or.inr (Or.inr (Or.inl ha)))
              · exact Or.inr (Or.inr (Or.inr (Or.inr (Or.inl hb))))
              · exact Or.inr (Or.inr (Or.inr (Or.inr (Or.inr (Or.inl hc)))))
              · exact Or.inr (Or.inr (Or.inr (Or.inr (Or.inr (Or.inr hd)))))
            · rw [if_neg h4] at herr
              exact absurd herr (by simp)
    · intro hr
      by_cases h1 : b.length < MIN_VK_SIZE
      · rw [if_pos h1]
      · rw [if_neg h1]
        by_cases h2 : leToNat (b.take 4) = 0 ∨ 100 < leToNat (b.take 4)
        · rw [if_pos h2]
        · rw [if_neg h2]
          by_cases h3 : b.length < 452 + (leToNat (b.take 4) + 1) * 64
          · rw [if_pos h3]
          · rw [if_neg h3]
            rcases hr with hz | hg | hl | ha | hb | hc | hd
            · exact absurd (Or.inl hz) h2
            · exact absurd (Or.inr hg) h2
            · exact absurd (by omega : b.length <
                452 + (leToNat (b.take 4) + 1) * 64) h3
            · rw [if_pos (Or.inl ha)]
            · rw [if_pos (Or.inr (Or.inl hb))]
            · rw [if_pos (Or.inr (Or.inr (Or.inl hc)))]
            · rw [if_pos (Or.inr (Or.inr (Or.inr hd)))]
  · intro vk hok
    by_cases h1 : b.length < MIN_VK_SIZE
    · rw [if_pos h1] at hok
      exact absurd hok (by simp)
    · rw [if_neg h1] at hok
      by_cases h2 : leToNat (b.take 4) = 0 ∨ 100 < leToNat (b.take 4)
      · rw [if_pos h2] at hok
        exact absurd hok (by simp)
      · rw [if_neg h2] at hok
        by_cases h3 : b.length < 452 + (leToNat (b.take 4) + 1) * 64
        · rw [if_pos h3] at hok
          exact absurd hok (by simp)
        · rw [if_neg h3] at hok
          by_cases h4 : ((b.drop 4).take 64).all (· = 0) = true ∨
              ((b.drop 68).take 128).all (· = 0) = true ∨
              ((b.drop 196).take 128).all (· = 0) = true ∨
              ((b.drop 324).take 128).all (· = 0) = true
          · rw [if_pos h4] at hok
            exact absurd hok (by simp)
          · rw [if_neg h4] at hok
            exact (Except.ok.inj hok).symm

/-- C1 (amended): when the 64-byte A limb of a 256-byte proof fails
G1 deserialization, verify_proof fails — but with ProofNegationFailed,
because verify_proof remaps every negate_proof_a error. -/
theorem verify_proof_invalid_a (glib : Groth16Lib) (proof : List Nat)
    (root nh recipient relayer : B32) (fee refund : Nat)
    (vk : Groth16Verifyingkey) (hlen : proof.length = 256)
    (hbad : deserializeG1 (change_endianness (proof.take 64) ++ [0]) = none) :
    verify_proof glib proof root nh recipient relayer fee refund vk
      = .error .ProofNegationFailed := by
  unfold verify_proof
  rw [if_neg (by simp [hlen])]
  simp only [negate_proof_a, hbad]

/-- Witness for C1's amended theorem at the all-zero proof. -/
theorem verify_proof_invalid_a_witness :
    verify_proof okGroth zeroProof zero32 zero32 zero32 zero32 0 0 someVK
      = .error .ProofNegationFailed :=
  verify_proof_invalid_a okGroth zeroProof zero32 zero32 zero32 zero32 0 0
    someVK (by rfl) (by rfl)

/-- Counterexample to C1 as stated: on the 256-zero-byte proof the A limb
fails G1 deserialization, yet verify_proof reports ProofNegationFailed,
not InvalidProofFormat (negate_proof_a's internal InvalidProofFormat is
remapped at line 574-578 of lib.rs). -/
theorem verify_proof_zero_not_invalid_format :
    verify_proof okGroth zeroProof zero32 zero32 zero32 zero32 0 0 someVK
      = .error .ProofNegationFailed ∧
    (TornadoError.ProofNegationFailed ≠ TornadoError.InvalidProofFormat) := by
  constructor
  · rfl
  · intro h
    exact absurd h (by decide)

/-- Witness for C10: a failing Poseidon falls back to zero, and insert
on a full tree reports MerkleTreeFull. -/
theorem hash_fallback_insert_total_witness :
    hash_left_right errPoseidon zero32 zero32 = zero32 ∧
    (TornadoError.MerkleTreeFull = TornadoError.MerkleTreeFull ∧
      2 ^ (20 : Nat) ≤ 2 ^ 20) :=
  ⟨(hash_fallback_insert_total errPoseidon).1 zero32 zero32 () rfl,
   (hash_fallback_insert_total errPoseidon).2.2.2.2
     { levels := 20, filled_subtrees := [], zeros := [],
       current_root := zero32, next_index := 2 ^ 20 }
     zero32 .MerkleTreeFull (by rfl)⟩

/-- Bounded congruence for List.any over an initial segment of Nat. -/
theorem any_range_congr {f g : Nat → Bool} {n : Nat}
    (h : ∀ k, k < n → f k = g k) :
    (List.range n).any f = (List.range n).any g := by
  rw [Bool.eq_iff_iff, List.any_eq_true, List.any_eq_true]
  constructor
  · rintro ⟨k, hk, hf⟩
    refine ⟨k, hk, ?_⟩
    rw [← h k (List.mem_range.mp hk)]
    exact hf
  · rintro ⟨k, hk, hg⟩
    refine ⟨k, hk, ?_⟩
    rw [h k (List.mem_range.mp hk)]
    exact hg

/-- Full-run characterization of the scan loop of is_known_root:
starting at slot i with (i + 30 - c - 1) % 30 + 1 slots left to visit and
at least that much fuel, the scan returns whether the target occurs among
the visited slots. -/
theorem scanLoop_run (roots : List B32) (c : Nat) (r : B32)
    (hlen : roots.length = 30) (hc : c < 30) :
    ∀ n i fuel, i < 30 → (i + 30 - c - 1) % 30 + 1 = n → n ≤ fuel →
      scanLoop roots c r i fuel =
        some ((List.range n).any
          (fun k => decide (roots.getD ((i + 30 - k) % 30) zero32 = r))) := by
  intro n
  induction n with
  | zero =>
    intro i fuel hi hd hf
    omega
  | succ n ih =>
    intro i fuel hi hd hf
    obtain ⟨fuel', rfl⟩ : ∃ f', fuel = f' + 1 := ⟨fuel - 1, by omega⟩
    have hilen : i < roots.length := by omega
    obtain ⟨v, hv⟩ : ∃ v, roots[i]? = some v := by
      rw [List.getElem?_eq_getElem hilen]
      exact ⟨_, rfl⟩
    have hgetD : roots.getD i zero32 = v := by
      rw [List.getD_eq_getElem?_getD, hv]
      rfl
    have hidx0 : (i + 30 - 0) % 30 = i := by omega
    simp only [scanLoop, hv]
    by_cases hvr : v = r
    · rw [if_pos hvr]
      have hany : (List.range (n + 1)).any
          (fun k => decide (roots.getD ((i + 30 - k) % 30) zero32 = r))
            = true := by
        refine List.any_eq_true.mpr ⟨0, List.mem_range.mpr (by omega), ?_⟩
        simp only [hidx0, hgetD, hvr]
        simp
      rw [hany]
    · rw [if_neg hvr]
      by_cases hstop : (if i = 0 then ROOT_HISTORY_SIZE - 1 else i - 1) = c
      · rw [if_pos hstop]
        have hn0 : n = 0 := by
          by_cases h0 : i = 0
          · rw [if_pos h0] at hstop
            simp [ROOT_HISTORY_SIZE] at hstop
            omega
          · rw [if_neg h0] at hstop
            omega
        subst hn0
        congr 1
        simp only [Nat.zero_add, List.range_succ, List.range_zero,
          List.nil_append, List.any_cons, List.any_nil, Bool.or_false]
        rw [hidx0, hgetD]
        simp [hvr]
      · rw [if_neg hstop]
        have hi2 : (if i = 0 then ROOT_HISTORY_SIZE - 1 else i - 1) < 30 := by
          by_cases h0 : i = 0
          · rw [if_pos h0]
            simp [ROOT_HISTORY_SIZE]
          · rw [if_neg h0]
            omega
        have hd2 : ((if i = 0 then ROOT_HISTORY_SIZE - 1 else i - 1)
            + 30 - c - 1) % 30 + 1 = n := by
          by_cases h0 : i = 0
          · rw [if_pos h0]
            rw [if_pos h0] at hstop
            simp only [ROOT_HISTORY_SIZE] at hstop ⊢
            have hc29 : c ≠ 29 := by omega
            omega
          · rw [if_neg h0]
            rw [if_neg h0] at hstop
            omega
        rw [ih _ fuel' hi2 hd2 (by omega)]
        congr 1
        rw [List.range_succ_eq_map, List.any_cons, List.any_map]
        have h00 : (decide (roots.getD ((i + 30 - 0) % 30) zero32 = r))
            = false := by
          rw [hidx0, hgetD]
          simp [hvr]
        simp only [h00, Bool.false_or]
        refine (any_range_congr ?_).symm
        intro k hk
        show decide (roots.getD ((i + 30 - (k + 1)) % 30) zero32 = r)
          = decide (roots.getD
              (((if i = 0 then ROOT_HISTORY_SIZE - 1 else i - 1)
                + 30 - k) % 30) zero32 = r)
        by_cases h0 : i = 0
        · rw [if_pos h0]
          subst h0
          have harith : (0 + 30 - (k + 1)) % 30
              = (ROOT_HISTORY_SIZE - 1 + 30 - k) % 30 := by
            simp only [ROOT_HISTORY_SIZE]
            omega
          rw [harith]
        · rw [if_neg h0]
          have harith : (i + 30 - (k + 1)) % 30 = (i - 1 + 30 - k) % 30 := by
            omega
          rw [harith]

/-- Characterization of is_known_root on a well-formed ring: the zero
sentinel is rejected, otherwise the result is membership in the 30 slots. -/
theorem is_known_root_eq (roots : List B32) (c : Nat) (r : B32)
    (hlen : roots.length = 30) (hc : c < 30) :
    is_known_root roots c r = some (decide (r ≠ zero32 ∧ r ∈ roots)) := by
  unfold is_known_root
  by_cases hz : r = zero32
  · rw [if_pos hz]
    simp [hz]
  · rw [if_neg hz]
    rw [scanLoop_run roots c r hlen hc 30 c ROOT_HISTORY_SIZE hc (by omega)
        (by simp [ROOT_HISTORY_SIZE])]
    congr 1
    rw [Bool.eq_iff_iff, List.any_eq_true, decide_eq_true_iff]
    constructor
    · rintro ⟨k, hk, hget⟩
      have hk30 : k < 30 := List.mem_range.mp hk
      have hj : (c + 30 - k) % 30 < 30 := by omega
      have hjlen : (c + 30 - k) % 30 < roots.length := by omega
      rw [decide_eq_true_iff] at hget
      refine ⟨hz, ?_⟩
      rw [← hget, List.getD_eq_getElem?_getD, List.getElem?_eq_getElem hjlen]
      exact List.getElem_mem hjlen
    · rintro ⟨-, hmem⟩
      obtain ⟨⟨j, hjlen⟩, hget⟩ := List.mem_iff_get.mp hmem
      have hj30 : j < 30 := by omega
      refine ⟨(c + 30 - j) % 30, List.mem_range.mpr (by omega), ?_⟩
      rw [decide_eq_true_iff]
      have harith : (c + 30 - (c + 30 - j) % 30) % 30 = j := by omega
      rw [harith, List.getD_eq_getElem?_getD, List.getElem?_eq_getElem hjlen]
      simpa using hget

/-- Shape of a successful deposit: the cursor advances modulo 30, the new
root lands in the advanced slot, and every other TornadoState field is
unchanged. -/
theorem deposit_ok_shape (lib : PoseidonLib) (s s' : TornadoState) (c : B32)
    (idx : Nat) (h : deposit lib s c = .ok (s', idx)) :
    s'.current_root_index = (s.current_root_index + 1) % 30 ∧
    s'.roots = s.roots.set ((s.current_root_index + 1) % 30)
      s'.merkle_tree.get_root ∧
    s'.denomination = s.denomination ∧
    s'.next_index = s.next_index ∧
    s'.authority = s.authority ∧
    s'.verifying_key = s.verifying_key := by
  unfold deposit at h
  cases hins : MerkleTree.insert lib s.merkle_tree c with
  | error e =>
    rw [hins] at h
    exact absurd h (by simp)
  | ok p =>
    obtain ⟨mt, li⟩ := p
    rw [hins] at h
    simp only [ROOT_HISTORY_SIZE] at h
    have h2 := Except.ok.inj h
    have h3 : ({ s with
        merkle_tree := mt
        current_root_index := (s.current_root_index + 1) % 30
        roots := s.roots.set ((s.current_root_index + 1) % 30)
          mt.get_root } : TornadoState) = s' := (Prod.ext_iff.mp h2).1
    subst h3
    simp

/-- C4 (amended): on a 30-entry roots array with cursor < 30,
is_known_root returns false for the all-zero sentinel and otherwise
returns true exactly when the root occurs in some slot of the ring. -/
theorem is_known_root_spec (roots : List B32) (c : Nat) (r : B32)
    (hlen : roots.length = 30) (hc : c < 30) :
    (r = zero32 → is_known_root roots c r = some false) ∧
    (r ≠ zero32 →
      (is_known_root roots c r = some true ↔ r ∈ roots)) := by
  have h := is_known_root_eq roots c r hlen hc
  constructor
  · intro hz
    rw [h]
    simp [hz]
  · intro hz
    rw [h]
    constructor
    · intro hsome
      have h2 := Option.some.inj hsome
      simp [hz] at h2
      exact h2
    · intro hmem
      simp [hz, hmem]

/-- Witness for C4's amended theorem on a concrete ring. -/
theorem is_known_root_spec_witness :
    (zero32 = zero32 →
      is_known_root (List.replicate 30 r1) 0 zero32 = some false) ∧
    (zero32 ≠ zero32 →
      (is_known_root (List.replicate 30 r1) 0 zero32 = some true ↔
        zero32 ∈ List.replicate 30 r1)) :=
  is_known_root_spec (List.replicate 30 r1) 0 zero32 (by simp) (by omega)

/-- Counterexample to C4 as stated: with the out-of-range cursor 30 and a
nonzero root occupying every slot, is_known_root panics on the array
access (none) instead of returning true. -/
theorem is_known_root_oob_counterexample :
    is_known_root (List.replicate 30 r1) 30 r1 = none ∧
    r1 ∈ List.replicate 30 r1 ∧ r1 ≠ zero32 :=
  ⟨by rfl, List.mem_replicate.mpr ⟨by omega, rfl⟩, by decide⟩

/-- C8: in every state reached from initialize by a sequence of deposits
the root-history cursor is below 30, and every is_known_root scan
starting from it stays in bounds (no panic). -/
theorem cursor_in_bounds (lib : PoseidonLib) (a : B32) (denom : Nat)
    (vk : List Nat) (cs : List B32) :
    (cs.foldl (depositStep lib)
      (initialize_pool lib a denom vk)).current_root_index < 30 ∧
    ∀ r, (is_known_root
      (cs.foldl (depositStep lib) (initialize_pool lib a denom vk)).roots
      (cs.foldl (depositStep lib)
        (initialize_pool lib a denom vk)).current_root_index r).isSome := by
  have inv : ∀ (cs : List B32) (s0 : TornadoState),
      s0.current_root_index < 30 → s0.roots.length = 30 →
      (cs.foldl (depositStep lib) s0).current_root_index < 30 ∧
      (cs.foldl (depositStep lib) s0).roots.length = 30 := by
    intro cs
    induction cs with
    | nil =>
      intro s0 h1 h2
      exact ⟨h1, h2⟩
    | cons c cs ih =>
      intro s0 h1 h2
      simp only [List.foldl_cons]
      apply ih
      · unfold depositStep
        cases hdep : deposit lib s0 c with
        | error e => exact h1
        | ok p =>
          obtain ⟨s1, idx⟩ := p
          have hcur := (deposit_ok_shape lib s0 s1 c idx hdep).1
          rw [hcur]
          omega
      · unfold depositStep
        cases hdep : deposit lib s0 c with
        | error e => exact h2
        | ok p =>
          obtain ⟨s1, idx⟩ := p
          have hroots := (deposit_ok_shape lib s0 s1 c idx hdep).2.1
          rw [hroots, List.length_set]
          exact h2
  have h0 : (initialize_pool lib a denom vk).current_root_index < 30 := by
    simp [initialize_pool]
  have h0r : (initialize_pool lib a denom vk).roots.length = 30 := by
    simp [initialize_pool]
  obtain ⟨hcur, hlen⟩ := inv cs (initialize_pool lib a denom vk) h0 h0r
  refine ⟨hcur, fun r => ?_⟩
  rw [is_known_root_eq _ _ _ hlen hcur]
  rfl

/-- A successful withdraw returns the TornadoState it received: the
handler never writes any state field. -/
theorem withdraw_ok_state (glib : Groth16Lib) (s : TornadoState)
    (acc : WithdrawAccounts) (proof : List Nat) (root nh recipient : B32)
    (relayer : Option B32) (fee refund : Nat) (s' : TornadoState)
    (out : WithdrawPayout)
    (h : withdraw glib s acc proof root nh recipient relayer fee refund
      = .ok (s', out)) : s' = s := by
  unfold withdraw at h
  repeat'
    first
      | exact ((Prod.ext_iff.mp (Except.ok.inj h)).1).symm
      | simp at h
      | split at h

/-- C9: the pool-level next_index field is 0 after initialize and stays 0
across every sequence of deposit, withdraw and migrate_to_vault
operations; only the embedded merkle_tree.next_index tracks leaves. -/
theorem pool_next_index_zero (lib : PoseidonLib) (a : B32) (denom : Nat)
    (vk : List Nat) (ops : List PoolOp) :
    (ops.foldl (applyOp lib) (initialize_pool lib a denom vk)).next_index
      = 0 := by
  have inv : ∀ (ops : List PoolOp) (s0 : TornadoState), s0.next_index = 0 →
      (ops.foldl (applyOp lib) s0).next_index = 0 := by
    intro ops
    induction ops with
    | nil =>
      intro s0 h
      exact h
    | cons op ops ih =>
      intro s0 h
      simp only [List.foldl_cons]
      apply ih
      cases op with
      | dep c =>
        show (depositStep lib s0 c).next_index = 0
        unfold depositStep
        cases hdep : deposit lib s0 c with
        | error e => exact h
        | ok p =>
          obtain ⟨s1, idx⟩ := p
          have hni := (deposit_ok_shape lib s0 s1 c idx hdep).2.2.2.1
          rw [hni]
          exact h
      | wd glib acc proof root nh recipient relayer fee refund =>
        show (match withdraw glib s0 acc proof root nh recipient relayer
            fee refund with
          | .ok (s1, _) => s1
          | .error _ => s0).next_index = 0
        cases hw : withdraw glib s0 acc proof root nh recipient relayer
            fee refund with
        | error e => exact h
        | ok p =>
          obtain ⟨s1, out⟩ := p
          rw [withdraw_ok_state glib s0 acc proof root nh recipient relayer
            fee refund s1 out hw]
          exact h
      | migrate => exact h
  exact inv ops (initialize_pool lib a denom vk) rfl

/-- A slot that is not the one the cursor will advance into survives any
run of further deposits whose count keeps the cursor from lapping it. -/
theorem ring_persist (lib : PoseidonLib) :
    ∀ (cs : List B32) (s : TornadoState) (p : Nat) (r : B32),
      s.roots.length = 30 → s.current_root_index < 30 → p < 30 →
      s.roots.getD p zero32 = r →
      (s.current_root_index + 30 - p) % 30 + cs.length < 30 →
      (cs.foldl (depositStep lib) s).roots.length = 30 ∧
      (cs.foldl (depositStep lib) s).current_root_index < 30 ∧
      (cs.foldl (depositStep lib) s).roots.getD p zero32 = r := by
  intro cs
  induction cs with
  | nil =>
    intro s p r h1 h2 h3 h4 h5
    exact ⟨h1, h2, h4⟩
  | cons c cs ih =>
    intro s p r h1 h2 h3 h4 h5
    simp only [List.length_cons] at h5
    simp only [List.foldl_cons]
    unfold depositStep
    cases hdep : deposit lib s c with
    | error e =>
      exact ih s p r h1 h2 h3 h4 (by omega)
    | ok pr =>
      obtain ⟨s1, idx⟩ := pr
      obtain ⟨hcur, hroots, -, -, -, -⟩ := deposit_ok_shape lib s s1 c idx hdep
      have hlen1 : s1.roots.length = 30 := by
        rw [hroots, List.length_set, h1]
      have hcur1 : s1.current_root_index < 30 := by
        rw [hcur]
        omega
      have hne : (s.current_root_index + 1) % 30 ≠ p := by
        intro hEq
        omega
      have hget1 : s1.roots.getD p zero32 = r := by
        rw [hroots, List.getD_eq_getElem?_getD, List.getElem?_set_ne hne,
            ← List.getD_eq_getElem?_getD]
        exact h4
      have hd1 : (s1.current_root_index + 30 - p) % 30 + cs.length < 30 := by
        rw [hcur]
        omega
      exact ih s1 p r hlen1 hcur1 h3 hget1 hd1

/-- C3 (amended): after a successful deposit whose produced root is not
the all-zero sentinel, is_known_root finds that root in every state
reached by fewer than 30 subsequent deposits. -/
theorem deposit_root_persists (lib : PoseidonLib) (s s' : TornadoState)
    (c : B32) (idx : Nat) (cs : List B32)
    (hlen : s.roots.length = 30)
    (hdep : deposit lib s c = .ok (s', idx)) (hcs : cs.length < 30)
    (hr : s'.merkle_tree.get_root ≠ zero32) :
    is_known_root (cs.foldl (depositStep lib) s').roots
      (cs.foldl (depositStep lib) s').current_root_index
      s'.merkle_tree.get_root = some true := by
  obtain ⟨hcur, hroots, -, -, -, -⟩ := deposit_ok_shape lib s s' c idx hdep
  have hp30 : (s.current_root_index + 1) % 30 < 30 := by omega
  have hlen' : s'.roots.length = 30 := by
    rw [hroots, List.length_set, hlen]
  have hcur' : s'.current_root_index < 30 := by
    rw [hcur]
    omega
  have hget : s'.roots.getD ((s.current_root_index + 1) % 30) zero32
      = s'.merkle_tree.get_root := by
    rw [hroots, List.getD_eq_getElem?_getD,
        List.getElem?_set_self (by rw [hlen]; omega)]
    rfl
  have hd : (s'.current_root_index + 30 - (s.current_root_index + 1) % 30)
      % 30 + cs.length < 30 := by
    rw [hcur]
    omega
  obtain ⟨hl, hc2, hg⟩ := ring_persist lib cs s'
    ((s.current_root_index + 1) % 30) s'.merkle_tree.get_root
    hlen' hcur' hp30 hget hd
  have hp' : (s.current_root_index + 1) % 30
      < (cs.foldl (depositStep lib) s').roots.length := by
    rw [hl]
    omega
  have hmem : s'.merkle_tree.get_root
      ∈ (cs.foldl (depositStep lib) s').roots := by
    rw [← hg, List.getD_eq_getElem?_getD, List.getElem?_eq_getElem hp']
    exact List.getElem_mem hp'
  rw [is_known_root_eq _ _ _ hl hc2]
  simp [hr, hmem]

/-- Counterexample to C3 as stated: when Poseidon initialization fails,
every hash falls back to the all-zero array, so a successful deposit
produces the all-zero root; is_known_root rejects that root immediately
(zero subsequent deposits have occurred). -/
theorem deposit_zero_root_counterexample :
    deposit errPoseidon (initialize_pool errPoseidon zero32 5 []) zero32
      = .ok (zeroRootState, 0) ∧
    zeroRootState.merkle_tree.get_root = zero32 ∧
    is_known_root zeroRootState.roots zeroRootState.current_root_index
      zeroRootState.merkle_tree.get_root = some false :=
  ⟨by rfl, by rfl, by rfl⟩

/-- Witness for C3's amended theorem: one deposit on a healthy pool, zero
subsequent deposits. -/
theorem deposit_root_persists_witness :
    is_known_root okDepositState.roots okDepositState.current_root_index
      okDepositState.merkle_tree.get_root = some true :=
  deposit_root_persists okPoseidon
    (initialize_pool okPoseidon zero32 5 []) okDepositState zero32 0 []
    (by decide) (by rfl) (by decide) (by decide)

/-- Unfolding of the claim-side filled_subtrees description by one
level. -/
theorem claimSubtrees_succ (lib : PoseidonLib) (fs zs : List B32)
    (idx : Nat) (leaf : B32) (n : Nat) :
    claimSubtrees lib fs zs idx leaf (n + 1)
      = if idx.testBit n then claimSubtrees lib fs zs idx leaf n
        else (claimSubtrees lib fs zs idx leaf n).set n
          (claimRunningHash lib fs zs idx leaf n) := by
  unfold claimSubtrees
  rw [List.range_succ, List.foldl_append]
  by_cases hbit : idx.testBit n <;> simp [hbit]

/-- The claim-side subtree update never touches a level at or above the
number of processed levels. -/
theorem claimSubtrees_getD_ge (lib : PoseidonLib) (fs zs : List B32)
    (idx : Nat) (leaf : B32) :
    ∀ n j, n ≤ j →
      (claimSubtrees lib fs zs idx leaf n).getD j zero32
        = fs.getD j zero32 := by
  intro n
  induction n with
  | zero =>
    intro j h
    rfl
  | succ n ih =>
    intro j h
    rw [claimSubtrees_succ]
    by_cases hbit : idx.testBit n
    · rw [if_pos hbit]
      exact ih j (by omega)
    · rw [if_neg hbit]
      rw [List.getD_eq_getElem?_getD,
          List.getElem?_set_ne (by omega : n ≠ j),
          ← List.getD_eq_getElem?_getD]
      exact ih j (by omega)

/-- The insert loop computes exactly the claim-side running hash and
subtree updates, with the carried index equal to the insertion index
shifted by the level. -/
theorem insert_fold (lib : PoseidonLib) (zs fs : List B32) (idx : Nat)
    (leaf : B32) :
    ∀ n, (List.range n).foldl (insertStep lib zs) (idx, leaf, fs)
      = (idx / 2 ^ n, claimRunningHash lib fs zs idx leaf n,
         claimSubtrees lib fs zs idx leaf n) := by
  intro n
  induction n with
  | zero =>
    simp [claimRunningHash, claimSubtrees]
  | succ n ih =>
    rw [List.range_succ, List.foldl_append, ih]
    simp only [List.foldl_cons, List.foldl_nil, insertStep]
    have e1 : idx / 2 ^ n / 2 = idx / 2 ^ (n + 1) := by
      rw [Nat.div_div_eq_div_mul, pow_succ]
    by_cases hbit : idx.testBit n
    · have hmod : ¬ idx / 2 ^ n % 2 = 0 := by
        rw [Nat.testBit_to_div_mod] at hbit
        simp at hbit
        omega
      rw [if_neg hmod]
      have e2 : claimRunningHash lib fs zs idx leaf (n + 1)
          = hash_left_right lib (fs.getD n zero32)
              (claimRunningHash lib fs zs idx leaf n) := by
        simp [claimRunningHash, hbit]
      have e3 : claimSubtrees lib fs zs idx leaf (n + 1)
          = claimSubtrees lib fs zs idx leaf n := by
        rw [claimSubtrees_succ, if_pos hbit]
      rw [claimSubtrees_getD_ge lib fs zs idx leaf n n (le_refl n),
          e1, e2, e3]
    · have hmod : idx / 2 ^ n % 2 = 0 := by
        rw [Nat.testBit_to_div_mod] at hbit
        simp at hbit
        omega
      rw [if_pos hmod]
      have e2 : claimRunningHash lib fs zs idx leaf (n + 1)
          = hash_left_right lib (claimRunningHash lib fs zs idx leaf n)
              (zs.getD n zero32) := by
        simp [claimRunningHash, hbit]
      have e3 : claimSubtrees lib fs zs idx leaf (n + 1)
          = (claimSubtrees lib fs zs idx leaf n).set n
              (claimRunningHash lib fs zs idx leaf n) := by
        rw [claimSubtrees_succ, if_neg hbit]
      rw [e1, e2, e3]

/-- C2: on a depth-20 tree with next_index < 2^20, insert walks levels
0..19 exactly as described — at level i, bit i of the insertion index
selects the left-child update Poseidon(h, zeros[i]) (storing h into
filled_subtrees[i]) or the right-child update
Poseidon(filled_subtrees[i], h) — then stores the final hash as
current_root, increments next_index, and returns the pre-increment
index; at next_index = 2^20 it fails with MerkleTreeFull and changes
nothing. -/
theorem insert_spec (lib : PoseidonLib) (t : MerkleTree) (leaf : B32)
    (hlv : t.levels = 20) :
    (t.next_index < 2 ^ 20 →
      MerkleTree.insert lib t leaf = .ok
        ({ t with
            filled_subtrees :=
              claimSubtrees lib t.filled_subtrees t.zeros t.next_index
                leaf 20
            current_root :=
              claimRunningHash lib t.filled_subtrees t.zeros t.next_index
                leaf 20
            next_index := t.next_index + 1 }, t.next_index)) ∧
    (t.next_index = 2 ^ 20 →
      MerkleTree.insert lib t leaf = .error .MerkleTreeFull) := by
  constructor
  · intro hlt
    unfold MerkleTree.insert
    rw [hlv, if_pos hlt, insert_fold]
  · intro heq
    unfold MerkleTree.insert
    rw [hlv, if_neg (by omega)]

/-- Witness for C2: the first insert on a fresh tree, and MerkleTreeFull
on a saturated tree. -/
theorem insert_spec_witness :
    MerkleTree.insert okPoseidon (MerkleTree.new okPoseidon) zero32 = .ok
      ({ MerkleTree.new okPoseidon with
          filled_subtrees := claimSubtrees okPoseidon
            (MerkleTree.new okPoseidon).filled_subtrees
            (MerkleTree.new okPoseidon).zeros
            (MerkleTree.new okPoseidon).next_index zero32 20
          current_root := claimRunningHash okPoseidon
            (MerkleTree.new okPoseidon).filled_subtrees
            (MerkleTree.new okPoseidon).zeros
            (MerkleTree.new okPoseidon).next_index zero32 20
          next_index := (MerkleTree.new okPoseidon).next_index + 1 },
        (MerkleTree.new okPoseidon).next_index) ∧
    MerkleTree.insert okPoseidon
      { MerkleTree.new okPoseidon with next_index := 2 ^ 20 } zero32
      = .error .MerkleTreeFull :=
  ⟨(insert_spec okPoseidon (MerkleTree.new okPoseidon) zero32 rfl).1
      (by decide),
   (insert_spec okPoseidon
      { MerkleTree.new okPoseidon with next_index := 2 ^ 20 } zero32
      rfl).2 rfl⟩

/-- Witness for C5 at the empty blob (nr_pubinputs reads as 0). -/
theorem deserialize_vk_validation_witness :
    deserialize_verifying_key [] = .error .InvalidVerifyingKey :=
  (deserialize_vk_validation []).1.mpr (Or.inl (by rfl))
